import Mathlib

/-!
Verification development for the arduino-fsm engine (src/Fsm.h, src/Fsm.cpp).

Shallow embedding conventions:
* `State` objects are identity-compared heap objects in the source; here each
  distinct state object is a natural-number id.  Its callback bindings
  (`on_enter`, `on_state`, `on_exit`, each a possibly-null function pointer)
  live in a `StateCfg`, looked up through an immutable environment
  `Env : Nat -> StateCfg` (states are never mutated after construction).
* User callbacks are opaque; executing the engine produces a trace of
  callback-invocation events (`Ev`).  `State::enter()` (Fsm.h:43) invokes
  `on_enter` only when it is bound, so it contributes an `Ev.enter` event
  exactly when the binding is present; similarly for `state`/`exit` and for
  `Transition::transition()` (Fsm.h:113).  The `StateMember` /
  `TransitionMember` variants behave identically (call the member function if
  bound) and are modelled by the same optional callback id.
* `millis()` is a stream of unsigned-long readings: a `Clock` is the list of
  values the successive `millis()` calls return (values reduced mod 2^32, the
  Arduino `unsigned long` width); each call consumes one element, an
  exhausted stream reads 0.
* Nullable pointers become `Option`; the engine's linked lists become Lean
  lists in the same (insertion) order; `unsigned long` arithmetic is `Nat`
  mod `UMOD = 2^32`, with wraparound subtraction `usub`.
-/

/-- Callback bindings of a `State` object (Fsm.h:38-55): each of the three
function pointers may be null; a bound callback is identified by a `Nat`. -/
structure StateCfg where
  on_enter : Option Nat
  on_state : Option Nat
  on_exit : Option Nat
deriving DecidableEq, Repr

/-- Environment mapping each state-object id to its (immutable) callbacks. -/
abbrev Env := Nat → StateCfg

/-- A callback-invocation event observed while the engine runs: the enter,
periodic (`state`) or exit callback of a given state firing, or a
transition's bound action firing (labelled by its callback id). -/
inductive Ev where
  | enter (s : Nat)
  | state (s : Nat)
  | exit (s : Nat)
  | action (a : Nat)
deriving DecidableEq, Repr

/-- `State::enter()` (Fsm.h:43-46): invokes `on_enter` iff it is bound. -/
def enterEvs (env : Env) (s : Nat) : List Ev :=
  match (env s).on_enter with
  | some _ => [Ev.enter s]
  | none => []

/-- `State::state()` (Fsm.h:47-50): invokes `on_state` iff it is bound. -/
def stateEvs (env : Env) (s : Nat) : List Ev :=
  match (env s).on_state with
  | some _ => [Ev.state s]
  | none => []

/-- `State::exit()` (Fsm.h:51-54): invokes `on_exit` iff it is bound. -/
def exitEvs (env : Env) (s : Nat) : List Ev :=
  match (env s).on_exit with
  | some _ => [Ev.exit s]
  | none => []

/-- `Fsm::TransitionInterface` (Fsm.h:104-110) together with the
`Transition`/`TransitionMember` payload: endpoints (state ids), the gating
event, and the optional bound action (identified by a callback id). -/
structure TransitionRec where
  state_from : Nat
  state_to : Nat
  event : Int
  on_transition : Option Nat
deriving DecidableEq, Repr

/-- `Transition::transition()` (Fsm.h:113-117): fires the action iff bound. -/
def transitionEvs (t : TransitionRec) : List Ev :=
  match t.on_transition with
  | some a => [Ev.action a]
  | none => []

/-- `Fsm::TimedTransition` (Fsm.h:127-132): a transition plus its arm
timestamp `start` (0 is the unarmed sentinel) and its `interval`. -/
structure TimedTransition where
  transition : TransitionRec
  start : Nat
  interval : Nat
deriving DecidableEq, Repr

/-- The `Fsm` object state (Fsm.h:156-159): current state id, the two
linked lists in insertion order, and the first-run flag. -/
structure Fsm where
  m_current_state : Nat
  m_transitions : List TransitionRec
  m_timed_transitions : List TimedTransition
  m_initialized : Bool
deriving DecidableEq, Repr

/-- `Fsm::Fsm(initial_state)` (Fsm.cpp:36-38): empty lists, not yet run. -/
def Fsm.new (initial_state : Nat) : Fsm :=
  { m_current_state := initial_state
    m_transitions := []
    m_timed_transitions := []
    m_initialized := false }

/-- Width of the Arduino `unsigned long` (32-bit) used for `millis()`,
`start` and `interval`. -/
def UMOD : Nat := 4294967296

/-- Wraparound-safe unsigned subtraction `a - b` on 32-bit unsigned longs,
as in `now - ttransition->start` (Fsm.cpp:180). -/
def usub (a b : Nat) : Nat :=
  (a + (UMOD - b % UMOD)) % UMOD

/-- The stream of values successive `millis()` calls will return. -/
abbrev Clock := List Nat

/-- One `millis()` call: reads the next clock value (as an unsigned long)
and consumes it; an exhausted stream reads 0. -/
def millis : Clock → Nat × Clock
  | [] => (0, [])
  | n :: c => (n % UMOD, c)

/-- `Fsm::create_transition(state_from, state_to, event, transition)`
(Fsm.cpp:139-153): rejects (frees the node, returns null) when either
endpoint is null, otherwise fills in the node.  Both the function-pointer
and member-function overloads (Fsm.cpp:117-137) funnel into this one; the
payload they attach is the optional action id. -/
def create_transition (state_from state_to : Option Nat) (event : Int)
    (on_transition : Option Nat) : Option TransitionRec :=
  match state_from, state_to with
  | some f, some t =>
      some { state_from := f, state_to := t, event := event,
             on_transition := on_transition }
  | _, _ => none

/-- `Fsm::add_transition(state_from, state_to, event, on_transition)`
(Fsm.cpp:58-61 via Fsm.cpp:70-81): builds the node with
`create_transition`; a null result is dropped, otherwise the node is
appended at the tail of `m_transitions`. -/
def Fsm.add_transition (fsm : Fsm) (state_from state_to : Option Nat)
    (event : Int) (on_transition : Option Nat) : Fsm :=
  match create_transition state_from state_to event on_transition with
  | none => fsm
  | some t => { fsm with m_transitions := fsm.m_transitions ++ [t] }

/-- `Fsm::add_timed_transition(state_from, state_to, interval,
on_transition)` (Fsm.cpp:83-88 via Fsm.cpp:97-115): builds the inner
transition with `create_transition` (event 0); a null result is dropped,
otherwise a `TimedTransition` with `start = 0` and the given interval
(coerced to unsigned long) is appended at the tail of
`m_timed_transitions`.  No validation of `interval` is performed. -/
def Fsm.add_timed_transition (fsm : Fsm) (state_from state_to : Option Nat)
    (interval : Nat) (on_transition : Option Nat) : Fsm :=
  match create_transition state_from state_to 0 on_transition with
  | none => fsm
  | some t =>
      { fsm with m_timed_transitions :=
          fsm.m_timed_transitions ++
            [{ transition := t, start := 0, interval := interval % UMOD }] }

/-- The match test of `Fsm::trigger` (Fsm.cpp:161-162):
`transition->state_from == m_current_state && transition->event == event`. -/
def matchesT (t : TransitionRec) (cur : Nat) (event : Int) : Bool :=
  t.state_from == cur && t.event == event

/-- The list scan inside `Fsm::trigger` (Fsm.cpp:158-167): walk
`m_transitions` from the head, return the first node matching the current
state and event, or null. -/
def findTransition (l : List TransitionRec) (cur : Nat) (event : Int) :
    Option TransitionRec :=
  match l with
  | [] => none
  | t :: rest =>
      if matchesT t cur event then some t else findTransition rest cur event

/-- `Fsm::reset_timers()` (Fsm.cpp:218-228): read `millis()` once, then set
`start` to that value on every timed transition whose `state_from` is the
current state. -/
def Fsm.reset_timers (fsm : Fsm) (clk : Clock) : Fsm × Clock :=
  let now := (millis clk).1
  ({ fsm with m_timed_transitions :=
      fsm.m_timed_transitions.map fun tt =>
        if tt.transition.state_from = fsm.m_current_state then
          { tt with start := now }
        else tt },
   (millis clk).2)

/-- `Fsm::make_transition(transition)` (Fsm.cpp:204-216): run
`state_from->exit()`, the transition's bound action, `state_to->enter()`
in that order, then assign `m_current_state = state_to`, then re-arm the
new state's outgoing timers via `reset_timers`. -/
def Fsm.make_transition (fsm : Fsm) (t : TransitionRec) (env : Env)
    (clk : Clock) : Fsm × Clock × List Ev :=
  let evs := exitEvs env t.state_from ++ transitionEvs t ++
    enterEvs env t.state_to
  let fsm1 : Fsm := { fsm with m_current_state := t.state_to }
  let rc := fsm1.reset_timers clk
  (rc.1, rc.2, evs)

/-- `Fsm::trigger(event)` (Fsm.cpp:155-169): does nothing before the first
`run_machine`; otherwise performs `make_transition` on the first matching
node of `m_transitions`, or nothing when none matches. -/
def Fsm.trigger (fsm : Fsm) (event : Int) (env : Env) (clk : Clock) :
    Fsm × Clock × List Ev :=
  if fsm.m_initialized then
    match findTransition fsm.m_transitions fsm.m_current_state event with
    | some t => fsm.make_transition t env clk
    | none => (fsm, clk, [])
  else (fsm, clk, [])

/-- In-place write of the `start` field of the `i`-th timed-transition node,
as the C++ loop does through its node pointer (`ttransition->start = ...`,
Fsm.cpp:177 and Fsm.cpp:182).  Out-of-range writes leave the list alone
(never reached by the engine). -/
def setStart (l : List TimedTransition) (i : Nat) (v : Nat) :
    List TimedTransition :=
  match l[i]? with
  | none => l
  | some tt => l.set i { tt with start := v }

/-- The loop body of `Fsm::check_timed_transitions()` (Fsm.cpp:171-188),
walking the node at position `i` then its successors; `k` is the number of
nodes still to visit (the node pointers and hence positions are never
changed by a fired transition, only `start` fields are, so index-based
iteration coincides with the pointer walk).  For the node at `i`: if its
`state_from` is the current state then either arm it (`start == 0`:
`start = millis()`) or, when `now - start >= interval` in unsigned
arithmetic, fire `make_transition` and reset `start = 0`; otherwise leave
it alone.  Fired callbacks are appended to the accumulated trace. -/
def Fsm.checkAux (env : Env) : Nat → Nat → Fsm → Clock → List Ev →
    Fsm × Clock × List Ev
  | 0, _, fsm, clk, evs => (fsm, clk, evs)
  | k + 1, i, fsm, clk, evs =>
    match fsm.m_timed_transitions[i]? with
    | none => (fsm, clk, evs)
    | some tt =>
      if tt.transition.state_from = fsm.m_current_state then
        if tt.start = 0 then
          Fsm.checkAux env k (i + 1)
            { fsm with m_timed_transitions :=
                setStart fsm.m_timed_transitions i (millis clk).1 }
            (millis clk).2 evs
        else
          if tt.interval ≤ usub (millis clk).1 tt.start then
            Fsm.checkAux env k (i + 1)
              { (fsm.make_transition tt.transition env (millis clk).2).1 with
                  m_timed_transitions :=
                    setStart (fsm.make_transition tt.transition env
                      (millis clk).2).1.m_timed_transitions i 0 }
              (fsm.make_transition tt.transition env (millis clk).2).2.1
              (evs ++ (fsm.make_transition tt.transition env
                (millis clk).2).2.2)
          else
            Fsm.checkAux env k (i + 1) fsm (millis clk).2 evs
      else
        Fsm.checkAux env k (i + 1) fsm clk evs

/-- `Fsm::check_timed_transitions()` (Fsm.cpp:171-188): scan the whole
timed-transition list once, from the head. -/
def Fsm.check_timed_transitions (fsm : Fsm) (env : Env) (clk : Clock) :
    Fsm × Clock × List Ev :=
  Fsm.checkAux env fsm.m_timed_transitions.length 0 fsm clk []

/-- `Fsm::run_machine()` (Fsm.cpp:190-200): on the first call set
`m_initialized` and run the current state's enter callback; every call then
runs the current state's periodic callback and evaluates the timed
transitions. -/
def Fsm.run_machine (fsm : Fsm) (env : Env) (clk : Clock) :
    Fsm × Clock × List Ev :=
  let fsm1 : Fsm :=
    if fsm.m_initialized then fsm else { fsm with m_initialized := true }
  let evs0 : List Ev :=
    if fsm.m_initialized then [] else enterEvs env fsm.m_current_state
  let evs1 := stateEvs env fsm.m_current_state
  let rc := fsm1.check_timed_transitions env clk
  (rc.1, rc.2.1, evs0 ++ evs1 ++ rc.2.2)

/-- `Fsm::get_current_state()` (Fsm.cpp:202). -/
def Fsm.get_current_state (fsm : Fsm) : Nat :=
  fsm.m_current_state

/-! ### Spec-side definitions and concrete instrumentation machines -/

/-- An instrumentation environment binding every callback: state `s`'s
callbacks are all present, so every virtual call is visible in the trace. -/
def envAll : Env := fun s => ⟨some s, some s, some s⟩

/-- A machine with two registered transitions out of state 0 for the same
event 7; both match, so `trigger 7` must take the first-registered one. -/
def fsmTwoMatches : Fsm :=
  { m_current_state := 0
    m_transitions := [⟨0, 1, 7, some 100⟩, ⟨0, 2, 7, some 200⟩]
    m_timed_transitions := []
    m_initialized := true }

/-- A machine before its first `run_machine`, with a transition registered
for event 7, and which would also not match event 9 when initialized. -/
def fsmUnstarted : Fsm :=
  { m_current_state := 0
    m_transitions := [⟨0, 1, 7, none⟩]
    m_timed_transitions := [⟨⟨0, 1, 0, none⟩, 3, 5⟩]
    m_initialized := false }

/-- The re-arm invariant claimed for timed transitions: every timed
transition out of the (just-entered) current state has `start` equal to the
clock value `now` observed at entry. -/
def armedAt (fsm : Fsm) (now : Nat) : Prop :=
  ∀ tt ∈ fsm.m_timed_transitions,
    tt.transition.state_from = fsm.m_current_state → tt.start = now

/-- An initialized machine whose only timed transition is an armed
(start = 5) self-loop on state 0 with interval 0. -/
def fsmSelfLoop : Fsm :=
  { m_current_state := 0
    m_transitions := []
    m_timed_transitions := [⟨⟨0, 0, 0, none⟩, 5, 0⟩]
    m_initialized := true }

/-- An initialized machine sitting in state 0 with a timed transition out
of state 1 (not current), unarmed, interval 42. -/
def fsmRearm : Fsm :=
  { m_current_state := 0
    m_transitions := []
    m_timed_transitions := [⟨⟨1, 0, 0, none⟩, 0, 42⟩]
    m_initialized := true }

/-- A machine in state 0 whose sole timed transition (0→1, interval 4) is
unarmed. -/
def fsmNine : Fsm :=
  { m_current_state := 0
    m_transitions := []
    m_timed_transitions := [⟨⟨0, 1, 0, none⟩, 0, 4⟩]
    m_initialized := true }

/-- Spec-side description of one step of the timed scan, following §4.4 of
the specification word for word: for the entry at position `i` of the
timed-transition list — if its `from` is the current state: when unarmed
(`start` is the sentinel) arm it to `now()` without firing in this same
evaluation; else when `now() - start >= interval` (unsigned) perform the
Transition Protocol and reset `start` back to unarmed; entries whose
`from` is not the current state are left untouched. -/
def timedStepSpec (env : Env) : Fsm × Clock × List Ev → Nat →
    Fsm × Clock × List Ev
  | (fsm, clk, evs), i =>
    match fsm.m_timed_transitions[i]? with
    | none => (fsm, clk, evs)
    | some tt =>
      if tt.transition.state_from = fsm.m_current_state then
        if tt.start = 0 then
          ({ fsm with m_timed_transitions :=
              setStart fsm.m_timed_transitions i (millis clk).1 },
           (millis clk).2, evs)
        else
          if tt.interval ≤ usub (millis clk).1 tt.start then
            ({ (fsm.make_transition tt.transition env (millis clk).2).1 with
                m_timed_transitions :=
                  setStart (fsm.make_transition tt.transition env
                    (millis clk).2).1.m_timed_transitions i 0 },
             (fsm.make_transition tt.transition env (millis clk).2).2.1,
             evs ++ (fsm.make_transition tt.transition env
               (millis clk).2).2.2)
          else (fsm, (millis clk).2, evs)
      else (fsm, clk, evs)

/-- Spec-side timed-transition evaluation (§4.4): a single left-to-right
pass applying `timedStepSpec` to every position of the list. -/
def checkSpec (fsm : Fsm) (env : Env) (clk : Clock) : Fsm × Clock × List Ev :=
  (List.range fsm.m_timed_transitions.length).foldl (timedStepSpec env)
    (fsm, clk, [])

/-- An initialized machine in state 0 with two timed transitions in
registration order: 0→1 (interval 5, armed at 3) then 1→2 (interval 1,
unarmed). -/
def fsmChain : Fsm :=
  { m_current_state := 0
    m_transitions := []
    m_timed_transitions := [⟨⟨0, 1, 0, none⟩, 3, 5⟩, ⟨⟨1, 2, 0, none⟩, 0, 1⟩]
    m_initialized := true }


/-! ### Frame lemmas for the engine operations -/

@[simp]
theorem reset_timers_current (fsm : Fsm) (clk : Clock) :
    (fsm.reset_timers clk).1.m_current_state = fsm.m_current_state := rfl

@[simp]
theorem reset_timers_initd (fsm : Fsm) (clk : Clock) :
    (fsm.reset_timers clk).1.m_initialized = fsm.m_initialized := rfl

@[simp]
theorem reset_timers_transitions (fsm : Fsm) (clk : Clock) :
    (fsm.reset_timers clk).1.m_transitions = fsm.m_transitions := rfl

@[simp]
theorem make_transition_current (fsm : Fsm) (t : TransitionRec) (env : Env)
    (clk : Clock) :
    (fsm.make_transition t env clk).1.m_current_state = t.state_to := rfl

@[simp]
theorem make_transition_initd (fsm : Fsm) (t : TransitionRec) (env : Env)
    (clk : Clock) :
    (fsm.make_transition t env clk).1.m_initialized = fsm.m_initialized := rfl

@[simp]
theorem make_transition_transitions (fsm : Fsm) (t : TransitionRec) (env : Env)
    (clk : Clock) :
    (fsm.make_transition t env clk).1.m_transitions = fsm.m_transitions := rfl

theorem make_transition_timed (fsm : Fsm) (t : TransitionRec) (env : Env)
    (clk : Clock) :
    (fsm.make_transition t env clk).1.m_timed_transitions =
      fsm.m_timed_transitions.map fun tt =>
        if tt.transition.state_from = t.state_to then
          { tt with start := (millis clk).1 }
        else tt := rfl

theorem checkAux_initd (env : Env) :
    ∀ (k i : Nat) (fsm : Fsm) (clk : Clock) (evs : List Ev),
    (Fsm.checkAux env k i fsm clk evs).1.m_initialized = fsm.m_initialized := by
  intro k
  induction k with
  | zero => intro i fsm clk evs; rfl
  | succ k ih =>
    intro i fsm clk evs
    rw [Fsm.checkAux]
    split
    · rfl
    · split
      · split
        · rw [ih]
        · split
          · rw [ih]; simp
          · rw [ih]
      · rw [ih]

/-! ### The trigger scan -/

theorem findTransition_first_match :
    ∀ (l : List TransitionRec) (cur : Nat) (e : Int) (i : Nat)
      (h : i < l.length),
    matchesT (l.get ⟨i, h⟩) cur e = true →
    (∀ j (hj : j < i), matchesT (l.get ⟨j, Nat.lt_trans hj h⟩) cur e = false) →
    findTransition l cur e = some (l.get ⟨i, h⟩) := by
  intro l
  induction l with
  | nil => intro cur e i h; exact absurd h (Nat.not_lt_zero i)
  | cons a tl ih =>
    intro cur e i h hm hfirst
    cases i with
    | zero =>
      rw [findTransition, if_pos (show matchesT a cur e = true from hm)]
      rfl
    | succ i =>
      have h0 : matchesT a cur e = false := by
        have := hfirst 0 (Nat.succ_pos i)
        simpa using this
      simp only [List.get_cons_succ] at hm ⊢
      rw [findTransition, if_neg (by simp [h0])]
      exact ih cur e i (Nat.lt_of_succ_lt_succ h) hm
        (fun j hj => by
          have := hfirst (j + 1) (Nat.succ_lt_succ hj)
          simpa using this)

theorem findTransition_none :
    ∀ (l : List TransitionRec) (cur : Nat) (e : Int),
    (∀ t ∈ l, matchesT t cur e = false) →
    findTransition l cur e = none := by
  intro l
  induction l with
  | nil => intro cur e _; rfl
  | cons a tl ih =>
    intro cur e h
    rw [findTransition, if_neg (by simp [h a (List.mem_cons_self a tl)])]
    exact ih cur e (fun t ht => h t (List.mem_cons_of_mem a ht))

/-! ### Claim theorems -/

/-- C1: every transition performed by the engine goes through
`make_transition` (both `trigger` and timed expiry call it), which emits
exactly the source state's exit callback, then the transition's bound
action (if any), then the destination state's enter callback — nothing
else in between — and then commits `m_current_state = state_to` and
re-arms the new state's outgoing timers via `reset_timers`. -/
theorem make_transition_protocol (fsm : Fsm) (t : TransitionRec) (env : Env)
    (clk : Clock) :
    (fsm.make_transition t env clk).2.2 =
      exitEvs env t.state_from ++ transitionEvs t ++ enterEvs env t.state_to ∧
    (fsm.make_transition t env clk).1 =
      (({ fsm with m_current_state := t.state_to } : Fsm).reset_timers clk).1 ∧
    (fsm.make_transition t env clk).1.m_current_state = t.state_to :=
  ⟨rfl, rfl, rfl⟩

/-- C2: on an initialized machine, `trigger` selects the first entry of the
transition list (in registration order) matching the current state and the
event, performs the Transition Protocol for it, and considers no later
entry — even when several entries match. -/
theorem trigger_first_match (fsm : Fsm) (e : Int) (env : Env) (clk : Clock)
    (i : Nat) (h : i < fsm.m_transitions.length)
    (hinit : fsm.m_initialized = true)
    (hm : matchesT (fsm.m_transitions.get ⟨i, h⟩) fsm.m_current_state e = true)
    (hfirst : ∀ j (hj : j < i),
      matchesT (fsm.m_transitions.get ⟨j, Nat.lt_trans hj h⟩)
        fsm.m_current_state e = false) :
    fsm.trigger e env clk =
      fsm.make_transition (fsm.m_transitions.get ⟨i, h⟩) env clk := by
  rw [Fsm.trigger, if_pos hinit,
    findTransition_first_match fsm.m_transitions fsm.m_current_state e i h
      hm hfirst]

/-- C2 witness: on `fsmTwoMatches`, where both registered transitions match
event 7, `trigger` performs the protocol of the first-registered one. -/
theorem trigger_first_match_witness :
    fsmTwoMatches.trigger 7 envAll [] =
      fsmTwoMatches.make_transition ⟨0, 1, 7, some 100⟩ envAll [] :=
  trigger_first_match fsmTwoMatches 7 envAll [] 0 (by decide) rfl rfl
    (fun j hj => absurd hj (Nat.not_lt_zero j))

/-- C3: a freshly constructed machine is uninitialized (enter does not run
at construction); `run_machine` emits the current state's enter callback
exactly when the machine was uninitialized (and marks it initialized),
then always the current state's periodic callback, and then the events of
the timed-transition evaluation; afterwards the machine is initialized,
so no later `run_machine` call replays the initial enter. -/
theorem run_machine_initial_enter (s : Nat) (fsm : Fsm) (env : Env)
    (clk : Clock) :
    (Fsm.new s).m_initialized = false ∧
    (fsm.run_machine env clk).2.2 =
      (if fsm.m_initialized then [] else enterEvs env fsm.m_current_state) ++
        stateEvs env fsm.m_current_state ++
        ((if fsm.m_initialized then fsm
          else { fsm with m_initialized := true }).check_timed_transitions
            env clk).2.2 ∧
    (fsm.run_machine env clk).1.m_initialized = true := by
  refine ⟨rfl, rfl, ?_⟩
  show (Fsm.checkAux env _ 0 _ clk []).1.m_initialized = true
  rw [checkAux_initd]
  cases hb : fsm.m_initialized <;> simp [hb]

/-- C6: `trigger` is a complete no-op — machine (current state, initialized
flag, all timed `start` fields), clock and trace all unchanged — both
before the first `run_machine` and when no registered transition matches
the current state and the event; neither case signals an error (the
operation simply returns). -/
theorem trigger_noop (fsm : Fsm) (e : Int) (env : Env) (clk : Clock)
    (h : fsm.m_initialized = false ∨
      ∀ t ∈ fsm.m_transitions, matchesT t fsm.m_current_state e = false) :
    fsm.trigger e env clk = (fsm, clk, []) := by
  rcases h with h | h
  · rw [Fsm.trigger, if_neg (by simp [h])]
  · rw [Fsm.trigger]
    split
    · rw [findTransition_none fsm.m_transitions fsm.m_current_state e h]
    · rfl

/-- C6 witness: on the uninitialized `fsmUnstarted`, `trigger 7` (which has
a registered match) changes nothing and fires no callback. -/
theorem trigger_noop_witness :
    fsmUnstarted.trigger 7 envAll [4, 5] = (fsmUnstarted, [4, 5], []) :=
  trigger_noop fsmUnstarted 7 envAll [4, 5] (Or.inl rfl)

/-- C7: a registration whose `from` or `to` is null is rejected:
`create_transition` returns the null indicator, and both `add_transition`
and `add_timed_transition` leave the machine — in particular both list
lengths — unchanged.  (The C++ `delete transition` releasing the freed
node, Fsm.cpp:143, has no counterpart in a heap-free model.) -/
theorem add_rejects_null_endpoint (fsm : Fsm) (sf st : Option Nat) (e : Int)
    (iv : Nat) (a : Option Nat) (h : sf = none ∨ st = none) :
    create_transition sf st e a = none ∧
    fsm.add_transition sf st e a = fsm ∧
    fsm.add_timed_transition sf st iv a = fsm := by
  have hc : ∀ e' : Int, create_transition sf st e' a = none := by
    intro e'
    rcases h with h | h
    · subst h; rfl
    · subst h; cases sf <;> rfl
  refine ⟨hc e, ?_, ?_⟩
  · rw [Fsm.add_transition, hc e]
  · rw [Fsm.add_timed_transition, hc 0]

/-- C7 witness: adding transitions with a null `to` endpoint to a fresh
machine returns the null indicator and leaves the machine unchanged. -/
theorem add_rejects_null_endpoint_witness :
    create_transition (some 3) none 7 (some 2) = none ∧
    (Fsm.new 3).add_transition (some 3) none 7 (some 2) = Fsm.new 3 ∧
    (Fsm.new 3).add_timed_transition (some 3) none 50 (some 2) = Fsm.new 3 :=
  add_rejects_null_endpoint (Fsm.new 3) (some 3) none 7 50 (some 2)
    (Or.inr rfl)

/-- C8 counterexample: `add_timed_transition` with valid endpoints and the
degenerate interval 0 is *not* rejected — the timed-transition list grows,
refuting the claim that the registration leaves it unchanged. -/
theorem add_timed_zero_interval_cex :
    ((Fsm.new 0).add_timed_transition (some 0) (some 1) 0
        none).m_timed_transitions ≠ (Fsm.new 0).m_timed_transitions := by
  decide

/-- C8 (amended): `add_timed_transition` performs no interval validation at
all: with non-null endpoints it always appends a timed transition carrying
the given interval (as an unsigned long) and an unarmed `start`, interval 0
included; only a null endpoint causes rejection. -/
theorem add_timed_accepts_any_interval (fsm : Fsm) (f t : Nat) (iv : Nat)
    (a : Option Nat) :
    fsm.add_timed_transition (some f) (some t) iv a =
      { fsm with m_timed_transitions :=
          fsm.m_timed_transitions ++
            [⟨⟨f, t, 0, a⟩, 0, iv % UMOD⟩] } := rfl

/-- C4 counterexample: on `fsmSelfLoop` with clock readings [5, 7], the
timed self-loop fires (5 - 5 >= 0) and `make_transition` re-enters state 0
at clock value 7 — yet afterwards the transition's `start` is the sentinel
0, not 7 (Fsm.cpp:182 overwrites the re-arm of Fsm.cpp:225), so the
claimed invariant fails for the very transition that fired. -/
theorem timed_selfloop_rearm_cex :
    ¬ armedAt (fsmSelfLoop.check_timed_transitions envAll [5, 7]).1 7 := by
  unfold armedAt
  decide

/-- C4 (amended): after any `make_transition` — timed or event-triggered —
every timed transition whose source is the destination state is re-armed
to the clock value read by `reset_timers`; the sole exception, forced by
the counterexample, is a timed self-transition that itself fired, whose
`start` is overwritten with the unarmed sentinel 0 right after the
protocol (as on `fsmSelfLoop`, where the fired self-loop ends unarmed). -/
theorem make_transition_rearm_invariant :
    (∀ (fsm : Fsm) (t : TransitionRec) (env : Env) (clk : Clock)
        (tt : TimedTransition),
      tt ∈ (fsm.make_transition t env clk).1.m_timed_transitions →
      tt.transition.state_from = t.state_to →
      tt.start = (millis clk).1) ∧
    (fsmSelfLoop.check_timed_transitions envAll [5, 7]).1.m_timed_transitions.map
      TimedTransition.start = [0] := by
  constructor
  · intro fsm t env clk tt hmem hfrom
    rw [make_transition_timed] at hmem
    obtain ⟨tt0, -, heq⟩ := List.mem_map.1 hmem
    by_cases hc : tt0.transition.state_from = t.state_to
    · rw [if_pos hc] at heq
      rw [← heq]
    · rw [if_neg hc] at heq
      rw [← heq] at hfrom
      exact absurd hfrom hc
  · decide

/-- C4 witness: performing the transition 0→1 on `fsmRearm` at clock value
9 leaves the timed transition out of state 1 armed with start 9. -/
theorem make_transition_rearm_invariant_witness :
    (⟨⟨1, 0, 0, none⟩, 9, 42⟩ : TimedTransition).start = (millis [9]).1 :=
  make_transition_rearm_invariant.1 fsmRearm ⟨0, 1, 5, none⟩ envAll [9]
    ⟨⟨1, 0, 0, none⟩, 9, 42⟩ (by decide) rfl

/-- C9: the unarmed sentinel is the literal timestamp 0.  Re-arming via
`reset_timers` at a moment when `millis()` reads 0 stores the sentinel
itself; and an entry whose `start` is 0 is treated as unarmed by
`check_timed_transitions` — it is (re)armed to the current reading and
never fires in that evaluation, however large `now - 0` is, i.e. it does
not count from time 0. -/
theorem millis_zero_is_sentinel (fsm : Fsm) (env : Env) (clk : Clock)
    (tt : TimedTransition)
    (hl : fsm.m_timed_transitions = [tt])
    (hf : tt.transition.state_from = fsm.m_current_state) :
    (fsm.reset_timers [0]).1.m_timed_transitions = [{ tt with start := 0 }] ∧
    (tt.start = 0 →
      fsm.check_timed_transitions env clk =
        ({ fsm with m_timed_transitions :=
            [{ tt with start := (millis clk).1 }] },
         (millis clk).2, [])) := by
  constructor
  · simp [Fsm.reset_timers, millis, hl, hf]
  · intro hs
    obtain ⟨cur, trs, tts, ini⟩ := fsm
    simp only at hl hf
    subst hl
    simp [Fsm.check_timed_transitions, Fsm.checkAux, setStart, hf, hs]

/-- C9 witness: on `fsmNine`, re-arming at clock 0 stores the sentinel, and
the scan at clock 6 arms the unarmed entry to 6 without firing it, even
though 6 - 0 exceeds the interval 4. -/
theorem millis_zero_is_sentinel_witness :
    (fsmNine.reset_timers [0]).1.m_timed_transitions =
      [⟨⟨0, 1, 0, none⟩, 0, 4⟩] ∧
    fsmNine.check_timed_transitions envAll [6] =
      ({ fsmNine with m_timed_transitions := [⟨⟨0, 1, 0, none⟩, 6, 4⟩] },
       [], []) := by
  have h := millis_zero_is_sentinel fsmNine envAll [6]
    ⟨⟨0, 1, 0, none⟩, 0, 4⟩ rfl rfl
  exact ⟨h.1, h.2 rfl⟩

theorem foldl_stepSpec_oob (env : Env) :
    ∀ (ks : List Nat) (fsm : Fsm) (clk : Clock) (evs : List Ev),
    (∀ j ∈ ks, fsm.m_timed_transitions[j]? = none) →
    ks.foldl (timedStepSpec env) (fsm, clk, evs) = (fsm, clk, evs) := by
  intro ks
  induction ks with
  | nil => intro fsm clk evs _; rfl
  | cons j ks ih =>
    intro fsm clk evs h
    rw [List.foldl_cons]
    have hstep : timedStepSpec env (fsm, clk, evs) j = (fsm, clk, evs) := by
      simp only [timedStepSpec, h j (List.mem_cons_self j ks)]
    rw [hstep]
    exact ih fsm clk evs (fun j' hj' => h j' (List.mem_cons_of_mem j hj'))

theorem checkAux_eq_foldl (env : Env) :
    ∀ (k i : Nat) (fsm : Fsm) (clk : Clock) (evs : List Ev),
    Fsm.checkAux env k i fsm clk evs =
      (List.range' i k).foldl (timedStepSpec env) (fsm, clk, evs) := by
  intro k
  induction k with
  | zero => intro i fsm clk evs; rfl
  | succ k ih =>
    intro i fsm clk evs
    rw [List.range'_succ i k 1, List.foldl_cons, Fsm.checkAux]
    cases hx : fsm.m_timed_transitions[i]? with
    | none =>
      have hstep : timedStepSpec env (fsm, clk, evs) i = (fsm, clk, evs) := by
        simp only [timedStepSpec, hx]
      rw [hstep]
      have hoob : ∀ j ∈ List.range' (i + 1) k,
          fsm.m_timed_transitions[j]? = none := by
        intro j hj
        have hb := (List.mem_range'_1).1 hj
        exact List.getElem?_eq_none
          (Nat.le_trans (List.getElem?_eq_none_iff.1 hx)
            (Nat.le_of_succ_le hb.1))
      rw [foldl_stepSpec_oob env _ fsm clk evs hoob]
    | some tt =>
      simp only [timedStepSpec, hx]
      split_ifs with h1 h2 h3 <;> exact ih (i + 1) _ _ _

/-- C5: `check_timed_transitions` coincides with the specification's
per-entry description `checkSpec`: one pass over the list in which a
matching unarmed entry is armed to `now()` (and does not fire in that same
evaluation), a matching armed entry fires exactly when
`now() - start >= interval` in unsigned arithmetic and is then reset to
unarmed, and an entry whose source is not the current state is left
untouched. -/
theorem check_timed_transitions_eq_spec (fsm : Fsm) (env : Env)
    (clk : Clock) :
    fsm.check_timed_transitions env clk = checkSpec fsm env clk := by
  rw [Fsm.check_timed_transitions, checkSpec,
    List.range_eq_range' fsm.m_timed_transitions.length]
  exact checkAux_eq_foldl env fsm.m_timed_transitions.length 0 fsm clk []

/-- C10: a single `run_machine` call on `fsmChain` with clock readings
[8, 9, 10, 11] performs two timed transitions in one scan: the first entry
fires at 8 (8 - 3 ≥ 5) and re-enters state 1, re-arming the second entry to
9 mid-scan; the second entry — registered later and compared against the
*new* current state 1 — then fires at 10 relative to its freshly re-armed
start (10 - 9 ≥ 1), ending in state 2, with the callbacks of both
transitions in scan order and both fired entries reset to unarmed. -/
theorem run_machine_two_timed_fires :
    (fsmChain.run_machine envAll [8, 9, 10, 11]).1.m_current_state = 2 ∧
    (fsmChain.run_machine envAll [8, 9, 10, 11]).2.2 =
      [Ev.state 0, Ev.exit 0, Ev.enter 1, Ev.exit 1, Ev.enter 2] ∧
    (fsmChain.run_machine envAll [8, 9, 10, 11]).1.m_timed_transitions.map
      TimedTransition.start = [0, 0] := by
  decide

